import Mathlib

/-!
Verification of the bondpaper-machine firmware against its specification.

The definitions below are a shallow embedding of the C++ sources:

* `CCState`/`ccUpdate`/... embed `src/main/CoinCounter.cpp` (class `CoinCounter`);
* `HState`/`hLoop`/... embed `src/main-final/HopperPayout.cpp` (class `HopperPayout`);
* `SlotState`/`coinPulseISR`/... embed `src/main/CoinSlotISR.cpp` (class `CoinSlotISR`);
* `PDState`/`pdStepMachine`/... embed `src/main/StepperMotor.cpp` (class `PaperDispenser`);
* `RelayState`/`setRelay`/... embed `src/main/RelayHopper.cpp` (class `RelayHopper`).

Timestamps (`millis()`) are passed explicitly as `Nat` arguments: every call to
`millis()` inside one C++ member-function invocation is modelled by the single
`now` parameter of the corresponding Lean function.  Unsigned-long subtraction
`now - t` is modelled by truncated `Nat` subtraction (time is monotone, so the
wrap-around case does not arise in the modelled runs).  Serial output is
modelled by a returned list of messages; GPIO writes that drive the dispense
relay are modelled by a `relayOn`/`actuatorOn` boolean in the state.
-/

/-! ## CoinCounter (src/main/CoinCounter.cpp) -/

/-- Messages the `CoinCounter` class writes to `Serial`, abstracted from their
JSON rendering (`sendStatusJson`, `sendEventJson "target_reached"`,
`sendTimeoutJson`, `sendAckJson`).  `ackMsg` carries the `ok` flag and the
`value` field of the acknowledgement (the JSON renderer omits `value` when it
is not positive; the payload here keeps it unconditionally). -/
inductive CCMsg where
  | statusMsg : CCMsg
  | targetReachedEvent (count target : Int) : CCMsg
  | timeoutError (finalCount target : Int) : CCMsg
  | ackMsg (ok : Bool) (value : Int) : CCMsg
  deriving Repr, DecidableEq

/-- State of one `CoinCounter` instance: the member variables
`m_nCurrentCount`, `m_nTargetCount`, `m_bNewCoinDetected`, `m_bDispensing`,
`m_bTargetReached`, `m_bTimedOut`, `m_ulLastCoinTime`, `m_ulLastStatusTime`,
plus the logical on/off state of the relay this counter drives
(`setRelay(n, false)` = energize = `relayOn := true`,
`setRelay(n, true)` = de-energize = `relayOn := false`). -/
structure CCState where
  count : Int
  target : Int
  newCoin : Bool
  dispensing : Bool
  targetReached : Bool
  timedOut : Bool
  lastCoinTime : Nat
  lastStatusTime : Nat
  relayOn : Bool
  deriving Repr, DecidableEq

/-- Constructor state: all counters zero, all flags false. -/
def ccInit : CCState :=
  { count := 0, target := 0, newCoin := false, dispensing := false,
    targetReached := false, timedOut := false, lastCoinTime := 0,
    lastStatusTime := 0, relayOn := false }

/-- `k_ulTimeoutDuration` (CoinCounter.h): timeout after no coins, 3000 ms. -/
def ccTimeoutDuration : Nat := 3000

/-- `k_ulStatusInterval` (CoinCounter.h): status update interval, 1000 ms. -/
def ccStatusInterval : Nat := 1000

/-- `CoinCounter::checkTimeout`: while dispensing, not yet at target, and no
coin for at least `k_ulTimeoutDuration`, set the timed-out flag, stop
dispensing, de-energize the relay and emit the timeout error message. -/
def ccCheckTimeout (s : CCState) (now : Nat) : CCState × List CCMsg :=
  if s.dispensing ∧ ¬s.targetReached ∧ ccTimeoutDuration ≤ now - s.lastCoinTime then
    ({ s with timedOut := true, dispensing := false, relayOn := false },
     [CCMsg.timeoutError s.count s.target])
  else (s, [])

/-- First section of `CoinCounter::update`: if the debounced counter button is
pressed this tick, count the coin (increment, flag, refresh `lastCoinTime`,
clear the timed-out flag); then, if dispensing with a positive target and the
count has reached the target, transition to target-reached (clear the
dispensing flag, de-energize the relay, emit the target-reached event). -/
def ccPressPhase (s : CCState) (pressed : Bool) (now : Nat) : CCState × List CCMsg :=
  if pressed then
    if s.dispensing ∧ 0 < s.target ∧ s.target ≤ s.count + 1 then
      ({ s with count := s.count + 1, newCoin := true, lastCoinTime := now,
                timedOut := false, targetReached := true, dispensing := false,
                relayOn := false },
       [CCMsg.targetReachedEvent (s.count + 1) s.target])
    else
      ({ s with count := s.count + 1, newCoin := true, lastCoinTime := now,
                timedOut := false }, [])
  else (s, [])

/-- Second section of `CoinCounter::update`: periodic status while dispensing. -/
def ccStatusPhase (s : CCState) (now : Nat) : CCState × List CCMsg :=
  if s.dispensing ∧ ccStatusInterval ≤ now - s.lastStatusTime then
    ({ s with lastStatusTime := now }, [CCMsg.statusMsg])
  else (s, [])

/-- Third section of `CoinCounter::update`: `if (m_bDispensing) checkTimeout()`. -/
def ccTimeoutPhase (s : CCState) (now : Nat) : CCState × List CCMsg :=
  if s.dispensing then ccCheckTimeout s now else (s, [])

/-- `CoinCounter::update`, one invocation: press handling, then periodic
status, then the timeout check, in source order. -/
def ccUpdate (s : CCState) (pressed : Bool) (now : Nat) : CCState × List CCMsg :=
  let r1 := ccPressPhase s pressed now
  let r2 := ccStatusPhase r1.1 now
  let r3 := ccTimeoutPhase r2.1 now
  (r3.1, r1.2 ++ r2.2 ++ r3.2)

/-- `CoinCounter::dispense`: non-positive amounts are rejected without any
state change (and without any message); otherwise the job is (re)started:
target set, count zeroed, dispensing flag set, timestamps refreshed, relay
energized, and an initial status message sent. -/
def ccDispense (s : CCState) (n : Int) (now : Nat) : CCState × List CCMsg :=
  if n ≤ 0 then (s, [])
  else
    ({ s with target := n, count := 0, dispensing := true, targetReached := false,
              timedOut := false, lastCoinTime := now, lastStatusTime := now,
              relayOn := true },
     [CCMsg.statusMsg])

/-- `CoinCounter::stopDispensing`: clear the dispensing flag and de-energize
the relay; nothing else changes and no message is emitted. -/
def ccStopDispensing (s : CCState) : CCState × List CCMsg :=
  ({ s with dispensing := false, relayOn := false }, [])

/-- `CoinCounter::reset`: clear every counter and flag (the relay is left
untouched by the source). -/
def ccReset (s : CCState) : CCState × List CCMsg :=
  ({ s with count := 0, newCoin := false, targetReached := false,
            timedOut := false, dispensing := false, target := 0,
            lastCoinTime := 0, lastStatusTime := 0 }, [])

/-- Dispense branch of `CoinCounter::processJsonCommand`: with a `value` field
it calls `dispense(value)` and then always acknowledges
`ok:true, status:"started"`; with the field missing it acknowledges
`ok:false, status:"missing_value"`. -/
def ccProcessJsonDispense (s : CCState) (value : Option Int) (now : Nat) :
    CCState × List CCMsg :=
  match value with
  | none => (s, [CCMsg.ackMsg false 0])
  | some v =>
      let r := ccDispense s v now
      (r.1, r.2 ++ [CCMsg.ackMsg true v])

/-- Invariant of a `CoinCounter` dispense job: while the dispensing flag is
set, the target is positive, the count is strictly below the target, and the
target-reached flag is clear. -/
def CCInv (s : CCState) : Prop :=
  s.dispensing = true → 0 < s.target ∧ s.count < s.target ∧ s.targetReached = false

instance (s : CCState) : Decidable (CCInv s) := by
  unfold CCInv; infer_instance

/-! ## HopperPayout (src/main-final/HopperPayout.cpp) -/

/-- Lines the `HopperPayout` class prints to `Serial`, abstracted from their
text rendering ("Started dispensing", "Invalid dispense amount",
"Stopped dispensing", "OUT d Count: c", "DONE HOPPER",
"DONE d TARGET REACHED! c", "ERR TIMEOUT d Final count: c/t"). -/
inductive HMsg where
  | startedMsg (n : Nat) : HMsg
  | invalidAmountMsg : HMsg
  | stoppedMsg : HMsg
  | countMsg (c : Nat) : HMsg
  | doneHopperMsg : HMsg
  | targetReachedMsg (c : Nat) : HMsg
  | errTimeoutMsg (finalCount target : Nat) : HMsg
  deriving Repr, DecidableEq

/-- State of one `HopperPayout` instance: `target_`, `count_` (uint16),
`busy_`, `pulsing_`, `lastCoin_`, `pulseStart_`, `coolStart_` (uint32 ms),
`lastButtonState_`, and the electrical state of the hopper actuator pin
(`on_()` = `actuatorOn := true`, `off_()` = `actuatorOn := false`). -/
structure HState where
  target : Nat
  count : Nat
  busy : Bool
  pulsing : Bool
  lastCoin : Nat
  pulseStart : Nat
  coolStart : Nat
  lastButtonState : Bool
  actuatorOn : Bool
  deriving Repr, DecidableEq

/-- Member initializers of `HopperPayout` (HopperPayout.h). -/
def hInit : HState :=
  { target := 0, count := 0, busy := false, pulsing := false, lastCoin := 0,
    pulseStart := 0, coolStart := 0, lastButtonState := false, actuatorOn := false }

/-- `HOPPER_PULSE_MS` (main-final/config.h): on-time per pulse, 1000 ms. -/
def hopperPulseMs : Nat := 1000

/-- `HOPPER_COOL_MS` (main-final/config.h): cooling time between pulses, 500 ms. -/
def hopperCoolMs : Nat := 500

/-- `HOPPER_MAX_GAP_MS` (main-final/config.h): payout watchdog, 3000 ms. -/
def hopperMaxGapMs : Nat := 3000

/-- `HopperPayout::stop`: actuator off, clear busy and pulsing flags, print
the stopped message. -/
def hStop (s : HState) : HState × List HMsg :=
  ({ s with actuatorOn := false, busy := false, pulsing := false },
   [HMsg.stoppedMsg])

/-- `HopperPayout::start`: rejected while busy (returns false, no output); a
zero amount is rejected with the invalid-amount message (`n` is `uint16_t`,
so `n <= 0` means `n = 0`); otherwise the job starts: target set, count
zeroed, busy, `lastCoin_ = millis()`, initial actuator pulse begun.  The
returned `Bool` is the C++ return value. -/
def hStart (s : HState) (n : Nat) (now : Nat) : HState × Bool × List HMsg :=
  if s.busy then (s, false, [])
  else if n = 0 then (s, false, [HMsg.invalidAmountMsg])
  else
    ({ s with target := n, count := 0, busy := true, lastCoin := now,
              actuatorOn := true, pulsing := true, pulseStart := now },
     true, [HMsg.startedMsg n])

/-- Duty-cycle section of `HopperPayout::loop`: end the ON pulse after
`HOPPER_PULSE_MS`, or, once `HOPPER_COOL_MS` of cooling has passed and no
coin was seen within the last 50 ms, begin the next ON pulse. -/
def hDutyPhase (s : HState) (now : Nat) : HState :=
  if s.pulsing then
    if hopperPulseMs ≤ now - s.pulseStart then
      { s with actuatorOn := false, pulsing := false, coolStart := now }
    else s
  else
    if hopperCoolMs ≤ now - s.coolStart ∧ 50 ≤ now - s.lastCoin then
      { s with actuatorOn := true, pulsing := true, pulseStart := now }
    else s

/-- Coin-detection section of `HopperPayout::loop`: a rising edge of the
sensor (`isPressed` now, not pressed last tick) at least 150 ms after the
current pulse began counts one coin (increment, refresh `lastCoin_`, print
the count); if that makes `count_ >= target_` (checked with the incremented
count, while still busy with a positive target) the run stops and the DONE
messages are printed. -/
def hDetectPhase (s : HState) (press : Bool) (now : Nat) : HState × List HMsg :=
  if press ∧ s.lastButtonState = false ∧ 150 < now - s.pulseStart then
    if s.busy ∧ 0 < s.target ∧ s.target ≤ s.count + 1 then
      ({ s with count := s.count + 1, lastCoin := now,
                busy := false, pulsing := false, actuatorOn := false },
       [HMsg.countMsg (s.count + 1), HMsg.stoppedMsg, HMsg.doneHopperMsg,
        HMsg.targetReachedMsg (s.count + 1)])
    else
      ({ s with count := s.count + 1, lastCoin := now },
       [HMsg.countMsg (s.count + 1)])
  else (s, [])

/-- Watchdog section of `HopperPayout::loop`: still busy and no coin for
`HOPPER_MAX_GAP_MS` stops the run and prints the DONE/ERR TIMEOUT messages. -/
def hTimeoutPhase (s : HState) (now : Nat) : HState × List HMsg :=
  if s.busy ∧ hopperMaxGapMs ≤ now - s.lastCoin then
    ({ s with busy := false, pulsing := false, actuatorOn := false },
     [HMsg.stoppedMsg, HMsg.doneHopperMsg, HMsg.errTimeoutMsg s.count s.target])
  else (s, [])

/-- `HopperPayout::loop`, one invocation: immediate return when not busy;
otherwise duty cycle, coin detection, `lastButtonState_ = currentState`, and
the timeout watchdog, in source order. -/
def hLoop (s : HState) (press : Bool) (now : Nat) : HState × List HMsg :=
  if s.busy = false then (s, [])
  else
    let s1 := hDutyPhase s now
    let r2 := hDetectPhase s1 press now
    let s2 := { r2.1 with lastButtonState := press }
    let r3 := hTimeoutPhase s2 now
    (r3.1, r2.2 ++ r3.2)

/-- Invariant of a `HopperPayout` run: while busy, the target is positive and
the count is strictly below it. -/
def HInv (s : HState) : Prop :=
  s.busy = true → 0 < s.target ∧ s.count < s.target

instance (s : HState) : Decidable (HInv s) := by
  unfold HInv; infer_instance

/-! ## Evaluation lemmas for single update passes -/

/-- Recognizer for the CoinCounter timeout error message. -/
def CCMsg.isTimeoutErr : CCMsg → Bool
  | CCMsg.timeoutError _ _ => true
  | _ => false

/-- Recognizer for the CoinCounter target-reached event message. -/
def CCMsg.isTargetEvent : CCMsg → Bool
  | CCMsg.targetReachedEvent _ _ => true
  | _ => false

/-- Recognizer for the hopper ERR TIMEOUT line. -/
def HMsg.isErrTimeout : HMsg → Bool
  | HMsg.errTimeoutMsg _ _ => true
  | _ => false

/-! ## Example states used by the witnesses -/

/-- A CoinCounter mid-run: dispensing 5, 2 confirmed so far. -/
def ccRunEx : CCState :=
  { count := 2, target := 5, newCoin := false, dispensing := true,
    targetReached := false, timedOut := false, lastCoinTime := 100,
    lastStatusTime := 100, relayOn := true }

/-- A CoinCounter one coin away from its target. -/
def ccAlmostEx : CCState := { ccRunEx with count := 4 }

/-- A CoinCounter whose last coin is far enough in the past to time out, and
which is also one coin away from its target. -/
def ccSameTickEx : CCState := { ccRunEx with count := 4, lastCoinTime := 0 }

/-- A CoinCounter mid-run whose last coin is far enough in the past to time out. -/
def ccTimedEx : CCState := { ccRunEx with lastCoinTime := 0 }

/-- A HopperPayout mid-run: paying out 3, 2 confirmed so far, mid ON pulse. -/
def hRunEx : HState :=
  { target := 3, count := 2, busy := true, pulsing := true, lastCoin := 100,
    pulseStart := 0, coolStart := 0, lastButtonState := false, actuatorOn := true }

/-- The hopper run with its last coin long enough ago to satisfy the watchdog. -/
def hSameTickEx : HState := { hRunEx with lastCoin := 0 }

/-! ## CoinSlotISR (src/main/CoinSlotISR.cpp) -/

/-- Coin event the slot emits on finalizing a recognized burst
(`sendEventJson(value, s_nTotalValue)`). -/
inductive SlotMsg where
  | coinEvent (coinValue totalValue : Int) : SlotMsg
  deriving Repr, DecidableEq

/-- ISR-shared state of the coin slot: `s_ulPulseCount`, `s_ulLastPulseTime`,
`s_bCoinActive`, `s_nTotalValue`. -/
structure SlotState where
  pulseCount : Nat
  lastPulseTime : Nat
  coinActive : Bool
  totalValue : Int
  deriving Repr, DecidableEq

/-- Static initializers of the ISR-shared variables. -/
def slotInit : SlotState :=
  { pulseCount := 0, lastPulseTime := 0, coinActive := false, totalValue := 0 }

/-- `k_ulCoinDebounceTime` (CoinSlotISR.h): debounce between pulses, 50 ms. -/
def coinDebounceTime : Nat := 50

/-- `k_ulCoinDetectTimeout` (CoinSlotISR.h): quiet window that groups pulses
into one coin, 300 ms. -/
def coinDetectTimeout : Nat := 300

/-- `CoinSlotISR::coinPulseISR`: an edge strictly more than
`k_ulCoinDebounceTime` after the previous counted edge increments the pulse
count, refreshes `s_ulLastPulseTime` and marks the burst active; a closer
edge is ignored entirely. -/
def coinPulseISR (s : SlotState) (now : Nat) : SlotState :=
  if coinDebounceTime < now - s.lastPulseTime then
    { s with pulseCount := s.pulseCount + 1, lastPulseTime := now,
             coinActive := true }
  else s

/-- A sequence of raw edges delivered to the ISR, oldest first. -/
def processEdges (s : SlotState) (ts : List Nat) : SlotState :=
  ts.foldl (fun st t => coinPulseISR st t) s

/-- `CoinSlotISR::getCoinValue`: the fixed classification table
1 pulse → 1, 3 → 5, 6 → 10, 9 → 20, anything else → 0. -/
def getCoinValue (count : Nat) : Int :=
  if count = 1 then 1
  else if count = 3 then 5
  else if count = 6 then 10
  else if count = 9 then 20
  else 0

/-- `CoinSlotISR::finalizeCoin`: add the classified value to the running
total; emit the coin event only when the value is positive. -/
def finalizeCoin (total : Int) (count : Nat) : Int × List SlotMsg :=
  (total + getCoinValue count,
   if 0 < getCoinValue count then
     [SlotMsg.coinEvent (getCoinValue count) (total + getCoinValue count)]
   else [])

/-- `CoinSlotISR::update`: once the burst has been quiet for more than
`k_ulCoinDetectTimeout`, finalize it as one coin and reset the burst. -/
def slotUpdate (s : SlotState) (now : Nat) : SlotState × List SlotMsg :=
  if s.coinActive ∧ coinDetectTimeout < now - s.lastPulseTime then
    ({ s with totalValue := (finalizeCoin s.totalValue s.pulseCount).1,
              pulseCount := 0, coinActive := false },
     (finalizeCoin s.totalValue s.pulseCount).2)
  else (s, [])

/-! ## PaperDispenser (src/main/StepperMotor.cpp) -/

/-- `DispenserState` enum of `PaperDispenser` (StepperMotor.h). -/
inductive PDMode where
  | idle : PDMode
  | homing : PDMode
  | dispensingMode : PDMode
  | rampingDown : PDMode
  | complete : PDMode
  | errorMode : PDMode
  deriving Repr, DecidableEq

/-- Direction of the DC feed motor (`dcMotorForward` / `dcMotorReverse` /
`dcMotorStop`). -/
inductive Motor where
  | forwardDir : Motor
  | reverseDir : Motor
  | stoppedDir : Motor
  deriving Repr, DecidableEq

/-- Messages `PaperDispenser` writes to `Serial`, abstracted from their JSON
rendering. -/
inductive PDMsg where
  | statusMsg : PDMsg
  | completeEvent : PDMsg
  | errorMsg : PDMsg
  | ackOk : PDMsg
  deriving Repr, DecidableEq

/-- State of one `PaperDispenser` instance: `m_nCurrentPaper`,
`m_nTotalPapers`, `m_bDispensing`, `m_bRampingDown`, `m_bOperationComplete`,
`m_bStopped`, `m_eState`, the timing members, and the DC feed motor drive. -/
structure PDState where
  currentPaper : Int
  totalPapers : Int
  dispensing : Bool
  rampingDown : Bool
  operationComplete : Bool
  stopped : Bool
  mode : PDMode
  lastStatusTime : Nat
  operationStartTime : Nat
  rampDownStartTime : Nat
  motor : Motor
  deriving Repr, DecidableEq

/-- Constructor state of `PaperDispenser`. -/
def pdInit : PDState :=
  { currentPaper := 0, totalPapers := 0, dispensing := false,
    rampingDown := false, operationComplete := false, stopped := false,
    mode := PDMode.idle, lastStatusTime := 0, operationStartTime := 0,
    rampDownStartTime := 0, motor := Motor.stoppedDir }

/-- `k_ulRampDownTime` (StepperMotor.h): reverse ramp-down time, 8000 ms. -/
def pdRampDownTime : Nat := 8000

/-- `PaperDispenser::updateStateMachine`, one pass.  `limit` is the sampled
value of `isLimitSwitchPressed()`.  The stepper rotation and the 100 ms
inter-sheet delay are hardware/timing effects with no further state in this
model. -/
def pdStepMachine (s : PDState) (limit : Bool) (now : Nat) : PDState × List PDMsg :=
  match s.mode with
  | PDMode.idle => (s, [])
  | PDMode.homing =>
      if limit then
        if s.dispensing then
          ({ s with motor := Motor.stoppedDir, mode := PDMode.dispensingMode }, [])
        else
          ({ s with motor := Motor.stoppedDir, mode := PDMode.idle }, [])
      else (s, [])
  | PDMode.dispensingMode =>
      if s.totalPapers ≤ s.currentPaper ∨ s.stopped = true then
        ({ s with mode := PDMode.rampingDown, rampingDown := true,
                  rampDownStartTime := now, motor := Motor.reverseDir }, [])
      else if limit = false then
        ({ s with mode := PDMode.homing, motor := Motor.forwardDir }, [])
      else
        ({ s with currentPaper := s.currentPaper + 1 }, [PDMsg.statusMsg])
  | PDMode.rampingDown =>
      if pdRampDownTime ≤ now - s.rampDownStartTime then
        ({ s with motor := Motor.stoppedDir, rampingDown := false,
                  mode := PDMode.complete, operationComplete := true },
         [PDMsg.completeEvent])
      else (s, [])
  | PDMode.complete =>
      ({ s with dispensing := false, currentPaper := 0, totalPapers := 0,
                mode := PDMode.idle }, [])
  | PDMode.errorMode => (s, [])

/-- `PaperDispenser::dispense`: non-positive sheet counts only report the
invalid-parameter error; otherwise all job fields are reset, the job starts
homing with the feed motor driving forward, and the initial status is sent. -/
def pdDispense (s : PDState) (n : Int) (now : Nat) : PDState × List PDMsg :=
  if n ≤ 0 then (s, [PDMsg.errorMsg])
  else
    ({ s with currentPaper := 0, totalPapers := n, dispensing := true,
              rampingDown := false, operationComplete := false, stopped := false,
              mode := PDMode.homing, motor := Motor.forwardDir,
              operationStartTime := now, lastStatusTime := now },
     [PDMsg.statusMsg])

/-- `PaperDispenser::stop`: while dispensing, only request the stop; emits
nothing and changes nothing else (a no-op when idle). -/
def pdStop (s : PDState) : PDState :=
  if s.dispensing then { s with stopped := true } else s

/-- One feeding pass with the limit switch held, at a fixed time `t`. -/
def pdPass (t : Nat) (s : PDState) : PDState :=
  (pdStepMachine s true t).1

/-- Stage 1 of the canonical feed run: the state right after `dispense(n)`. -/
def pdRunS1 (s : PDState) (n : Nat) (t0 : Nat) : PDState :=
  (pdDispense s (n : Int) t0).1

/-- Stage 2: the state after the homing pass sees the limit switch. -/
def pdRunS2 (s : PDState) (n : Nat) (t0 t1 : Nat) : PDState :=
  (pdStepMachine (pdRunS1 s n t0) true t1).1

/-- Stage 3: the state after `k` feeding passes with the switch held. -/
def pdRunFeed (s : PDState) (n : Nat) (t0 t1 t2 : Nat) (k : Nat) : PDState :=
  (pdPass t2)^[k] (pdRunS2 s n t0 t1)

/-- Stage 4: the state after the pass that sees `currentSheet = totalSheets`. -/
def pdRunRamp (s : PDState) (n : Nat) (t0 t1 t2 : Nat) : PDState :=
  (pdStepMachine (pdRunFeed s n t0 t1 t2 n) true t2).1

/-- Stage 5: the state after the ramp-down duration has elapsed. -/
def pdRunComplete (s : PDState) (n : Nat) (t0 t1 t2 : Nat) : PDState :=
  (pdStepMachine (pdRunRamp s n t0 t1 t2) true (t2 + pdRampDownTime)).1

/-! ## Claims C3, C7, C8 (corrected) -/

/-- The paper dispenser mid-run (2 of 5 sheets fed) right after `stop()` was
called: `dispense(5)` from the constructor state, one homing pass, two
feeding passes, then `stop()`. -/
def pdStopRunCE : PDState :=
  pdStop ((pdPass 20)^[2] ((pdStepMachine (pdDispense pdInit 5 0).1 true 10).1))

/-- A paper dispenser feeding its third of five sheets. -/
def pdMidEx : PDState :=
  { pdInit with mode := PDMode.dispensingMode, dispensing := true,
                totalPapers := 5, currentPaper := 2 }

/-- The same state with a stop already requested. -/
def pdStoppedEx : PDState := { pdMidEx with stopped := true }

/-- A paper dispenser in ramp-down that started reversing at 30 ms. -/
def pdRampEx : PDState :=
  { pdInit with mode := PDMode.rampingDown, rampDownStartTime := 30,
                dispensing := true, rampingDown := true }

/-! ## RelayHopper (src/main/RelayHopper.cpp) -/

/-- Messages the `RelayHopper` class writes to `Serial`, abstracted from the
JSON rendering of `sendStatusJson`, `sendAckJson` and `sendErrorJson`.
`ackSet` carries the relay number and the new boolean state
(true = OFF/HIGH, false = ON/LOW, as in `m_bRelayStates`). -/
inductive RMsg where
  | statusMsg : RMsg
  | ackSet (relay : Int) (stateOff : Bool) : RMsg
  | errMissingParams : RMsg
  | errInvalidState (relay : Int) : RMsg
  deriving Repr, DecidableEq

/-- The three-element `m_bRelayStates` array (true = de-energized/OFF). -/
structure RelayState where
  state1 : Bool
  state2 : Bool
  state3 : Bool
  deriving Repr, DecidableEq

/-- Constructor state: all relays OFF. -/
def relayInit : RelayState :=
  { state1 := true, state2 := true, state3 := true }

/-- In-bounds write `m_bRelayStates[i] = b` for `i` in 0..2 (callers below
only reach it with a checked index; the catch-all branch is never used by
them). -/
def relayWrite (s : RelayState) (i : Nat) (b : Bool) : RelayState :=
  match i with
  | 0 => { s with state1 := b }
  | 1 => { s with state2 := b }
  | 2 => { s with state3 := b }
  | _ => s

/-- `RelayHopper::setRelay`: the public operation guards the range
`1 <= relayNum <= 3`; inside the range it writes `m_bRelayStates[relayNum-1]`
and acknowledges, outside it does nothing at all. -/
def setRelay (s : RelayState) (relayNum : Nat) (st : Bool) : RelayState × List RMsg :=
  if 1 ≤ relayNum ∧ relayNum ≤ 3 then
    (relayWrite s (relayNum - 1) st, [RMsg.ackSet relayNum st])
  else (s, [])

/-- The `setRelay` branch of `RelayHopper::processJsonCommand`, after both
required fields were found and the `state` string parsed (`st = none` models
an unrecognized state string, answered with the invalid-state error).  The
source indexes `m_nRelayPins[relayNumber - 1]` and
`m_bRelayStates[relayNumber - 1]` with no range check; an index outside 0..2
is an out-of-bounds array access, modelled here as `none` (undefined
behavior).  `value` is the JSON integer field. -/
def processJsonSetRelay (s : RelayState) (value : Int) (st : Option Bool) :
    Option (RelayState × List RMsg) :=
  match st with
  | none => some (s, [RMsg.errInvalidState value])
  | some b =>
      if 0 ≤ value - 1 ∧ value - 1 < 3 then
        some (relayWrite s (value - 1).toNat b, [RMsg.ackSet value b])
      else none

/-! Theorems: CoinCounter (src/main/CoinCounter.cpp) -/

theorem ccPressPhase_inv (s : CCState) (pressed : Bool) (now : Nat)
    (h : CCInv s) : CCInv (ccPressPhase s pressed now).1 := by
  unfold ccPressPhase
  cases pressed with
  | false => exact h
  | true =>
    simp only [CCInv] at h ⊢
    split
    · split
      · intro hd
        exact Bool.noConfusion hd
      · rename_i hcond
        intro hd
        rcases h hd with ⟨h1, h2, h3⟩
        refine ⟨h1, ?_, h3⟩
        show s.count + 1 < s.target
        by_contra hle
        exact hcond ⟨hd, h1, by omega⟩
    · rename_i hp
      exact absurd trivial hp

theorem ccStatusPhase_inv (s : CCState) (now : Nat)
    (h : CCInv s) : CCInv (ccStatusPhase s now).1 := by
  unfold ccStatusPhase
  split <;> simpa [CCInv] using h

theorem ccTimeoutPhase_inv (s : CCState) (now : Nat)
    (h : CCInv s) : CCInv (ccTimeoutPhase s now).1 := by
  unfold ccTimeoutPhase ccCheckTimeout
  split
  · split
    · simp [CCInv]
    · exact h
  · exact h

theorem ccUpdate_inv (s : CCState) (pressed : Bool) (now : Nat)
    (h : CCInv s) : CCInv (ccUpdate s pressed now).1 := by
  unfold ccUpdate
  exact ccTimeoutPhase_inv _ _ (ccStatusPhase_inv _ _ (ccPressPhase_inv _ _ _ h))

theorem ccDispense_inv (s : CCState) (n : Int) (now : Nat)
    (h : CCInv s) : CCInv (ccDispense s n now).1 := by
  unfold ccDispense
  split
  · exact h
  · rename_i hn
    intro _
    simp only [not_le] at hn
    exact ⟨hn, hn, rfl⟩

/-! Theorems: HopperPayout (src/main-final/HopperPayout.cpp) -/

theorem hDutyPhase_fields (s : HState) (now : Nat) :
    (hDutyPhase s now).busy = s.busy ∧ (hDutyPhase s now).count = s.count ∧
    (hDutyPhase s now).target = s.target ∧ (hDutyPhase s now).lastCoin = s.lastCoin ∧
    (hDutyPhase s now).lastButtonState = s.lastButtonState := by
  unfold hDutyPhase
  split
  · split <;> simp
  · split <;> simp

theorem hDutyPhase_inv (s : HState) (now : Nat) (h : HInv s) :
    HInv (hDutyPhase s now) := by
  unfold hDutyPhase
  split
  · split
    · intro hb
      exact h hb
    · exact h
  · split
    · intro hb
      exact h hb
    · exact h

theorem hDetectPhase_inv (s : HState) (press : Bool) (now : Nat) (h : HInv s) :
    HInv (hDetectPhase s press now).1 := by
  unfold hDetectPhase
  split
  · split
    · intro hb
      exact Bool.noConfusion hb
    · rename_i hcond
      intro hb
      rcases h hb with ⟨h1, h2⟩
      refine ⟨h1, ?_⟩
      show s.count + 1 < s.target
      by_contra hle
      exact hcond ⟨hb, h1, by omega⟩
  · exact h

theorem hTimeoutPhase_inv (s : HState) (now : Nat) (h : HInv s) :
    HInv (hTimeoutPhase s now).1 := by
  unfold hTimeoutPhase
  split
  · intro hb
    exact Bool.noConfusion hb
  · exact h

theorem hLoop_inv (s : HState) (press : Bool) (now : Nat) (h : HInv s) :
    HInv (hLoop s press now).1 := by
  unfold hLoop
  split
  · exact h
  · refine hTimeoutPhase_inv _ _ ?_
    intro hb
    have h2 := hDetectPhase_inv (hDutyPhase s now) press now (hDutyPhase_inv s now h)
    exact h2 hb

theorem hStart_inv (s : HState) (n : Nat) (now : Nat) (h : HInv s) :
    HInv (hStart s n now).1 := by
  unfold hStart
  split
  · exact h
  · split
    · exact h
    · rename_i hn
      intro _
      exact ⟨Nat.pos_of_ne_zero hn, Nat.pos_of_ne_zero hn⟩

/-! Theorems: Evaluation lemmas for single update passes -/

theorem ccUpdate_completes (s : CCState) (now : Nat)
    (hd : s.dispensing = true) (ht : 0 < s.target) (hcomp : s.target ≤ s.count + 1) :
    (ccUpdate s true now).1 =
      { s with count := s.count + 1, newCoin := true, lastCoinTime := now,
               timedOut := false, targetReached := true, dispensing := false,
               relayOn := false } ∧
    (ccUpdate s true now).2 = [CCMsg.targetReachedEvent (s.count + 1) s.target] := by
  unfold ccUpdate ccPressPhase ccStatusPhase ccTimeoutPhase ccCheckTimeout
  simp [hd, ht, hcomp]

theorem ccUpdate_not_dispensing (s : CCState) (p : Bool) (now : Nat)
    (h : s.dispensing = false) :
    (ccUpdate s p now).2 = [] ∧
    (ccUpdate s p now).1.dispensing = false ∧
    (ccUpdate s p now).1.targetReached = s.targetReached ∧
    (ccUpdate s p now).1.target = s.target ∧
    (ccUpdate s p now).1.relayOn = s.relayOn ∧
    (ccUpdate s p now).1.count = (if p then s.count + 1 else s.count) ∧
    (ccUpdate s p now).1.timedOut = (if p then false else s.timedOut) ∧
    (ccUpdate s p now).1.newCoin = (if p then true else s.newCoin) ∧
    (ccUpdate s p now).1.lastCoinTime = (if p then now else s.lastCoinTime) := by
  unfold ccUpdate ccPressPhase ccStatusPhase ccTimeoutPhase ccCheckTimeout
  cases p <;> simp [h]

theorem ccUpdate_timesOut (s : CCState) (now : Nat)
    (hd : s.dispensing = true) (htr : s.targetReached = false)
    (hgap : ccTimeoutDuration ≤ now - s.lastCoinTime) :
    (ccUpdate s false now).1.timedOut = true ∧
    (ccUpdate s false now).1.dispensing = false ∧
    (ccUpdate s false now).1.relayOn = false ∧
    (ccUpdate s false now).2.filter CCMsg.isTimeoutErr =
      [CCMsg.timeoutError s.count s.target] := by
  unfold ccUpdate ccPressPhase ccStatusPhase ccTimeoutPhase ccCheckTimeout
  by_cases hst : ccStatusInterval ≤ now - s.lastStatusTime <;>
    simp [hst, hd, htr, hgap, CCMsg.isTimeoutErr]

theorem hLoop_not_busy (s : HState) (press : Bool) (now : Nat)
    (h : s.busy = false) : hLoop s press now = (s, []) := by
  unfold hLoop
  simp [h]

theorem hDutyPhase_pulseStart_of_pulsing (s : HState) (now : Nat)
    (h : s.pulsing = true) : (hDutyPhase s now).pulseStart = s.pulseStart := by
  unfold hDutyPhase
  rw [if_pos h]
  split <;> rfl

theorem hLoop_completes (s : HState) (now : Nat)
    (hb : s.busy = true) (ht : 0 < s.target) (hcomp : s.target ≤ s.count + 1)
    (hlb : s.lastButtonState = false) (hpul : s.pulsing = true)
    (hps : 150 < now - s.pulseStart) :
    (hLoop s true now).1.busy = false ∧
    (hLoop s true now).1.actuatorOn = false ∧
    (hLoop s true now).1.count = s.count + 1 ∧
    (hLoop s true now).2 =
      [HMsg.countMsg (s.count + 1), HMsg.stoppedMsg, HMsg.doneHopperMsg,
       HMsg.targetReachedMsg (s.count + 1)] := by
  unfold hLoop hDutyPhase hDetectPhase hTimeoutPhase
  by_cases hend : hopperPulseMs ≤ now - s.pulseStart <;>
    simp [hb, hlb, hpul, hps, ht, hcomp, hend]

theorem hLoop_timesOut (s : HState) (now : Nat)
    (hb : s.busy = true) (hgap : hopperMaxGapMs ≤ now - s.lastCoin) :
    (hLoop s false now).1.busy = false ∧
    (hLoop s false now).1.actuatorOn = false ∧
    (hLoop s false now).2 =
      [HMsg.stoppedMsg, HMsg.doneHopperMsg,
       HMsg.errTimeoutMsg s.count s.target] := by
  unfold hLoop hDutyPhase hDetectPhase hTimeoutPhase
  by_cases hp : s.pulsing = true
  · by_cases hend : hopperPulseMs ≤ now - s.pulseStart <;>
      simp [hb, hp, hend, hgap]
  · have hp' : s.pulsing = false := by
      cases h : s.pulsing
      · rfl
      · exact absurd h hp
    by_cases hcool : hopperCoolMs ≤ now - s.coolStart
    · have h50 : 50 ≤ now - s.lastCoin := le_trans (by norm_num [hopperMaxGapMs]) hgap
      simp [hb, hp', hcool, h50, hgap]
    · simp [hb, hp', hcool, hgap]

/-! Theorems: Claim theorems: C1, C2, C4 -/

/-- C1: for every dispense-controller run, while the job is running the
confirmed-unit count never exceeds the target (the run invariant is
established by `dispense`/`start` and preserved by every `update`/`loop`
pass), and confirming the unit that makes the count reach the target
transitions the run from running to target-reached: the dispensing flag is
cleared and the target-reached flag set (for the hopper, which has no
target-reached flag, the busy flag is cleared). -/
theorem claim_C1_running_count_bounded :
    (∀ s pressed now, CCInv s → CCInv (ccUpdate s pressed now).1) ∧
    (∀ s n now, CCInv s → CCInv (ccDispense s n now).1) ∧
    (∀ s : CCState, CCInv s → s.dispensing = true → s.count ≤ s.target) ∧
    (∀ s now, CCInv s → s.dispensing = true → s.target ≤ s.count + 1 →
      (ccUpdate s true now).1.targetReached = true ∧
      (ccUpdate s true now).1.dispensing = false ∧
      (ccUpdate s true now).1.count = s.target) ∧
    (∀ s press now, HInv s → HInv (hLoop s press now).1) ∧
    (∀ s n now, HInv s → HInv (hStart s n now).1) ∧
    (∀ s : HState, HInv s → s.busy = true → s.count ≤ s.target) := by
  refine ⟨ccUpdate_inv, ccDispense_inv, ?_, ?_, hLoop_inv, hStart_inv, ?_⟩
  · intro s h hd
    exact le_of_lt (h hd).2.1
  · intro s now h hd hcomp
    obtain ⟨ht, hc, _⟩ := h hd
    obtain ⟨h1, _⟩ := ccUpdate_completes s now hd ht hcomp
    rw [h1]
    refine ⟨rfl, rfl, ?_⟩
    show s.count + 1 = s.target
    omega
  · intro s h hb
    exact le_of_lt (h hb).2

theorem claim_C1_witness :
    (CCInv ccRunEx ∧ CCInv (ccUpdate ccRunEx true 200).1) ∧
    (CCInv ccAlmostEx ∧ ccAlmostEx.dispensing = true ∧
      ccAlmostEx.target ≤ ccAlmostEx.count + 1) ∧
    ((ccUpdate ccAlmostEx true 200).1.targetReached = true ∧
     (ccUpdate ccAlmostEx true 200).1.dispensing = false ∧
     (ccUpdate ccAlmostEx true 200).1.count = ccAlmostEx.target) ∧
    (HInv hRunEx ∧ HInv (hLoop hRunEx true 200).1) :=
  ⟨⟨by decide, claim_C1_running_count_bounded.1 ccRunEx true 200 (by decide)⟩,
   ⟨by decide, by decide, by decide⟩,
   claim_C1_running_count_bounded.2.2.2.1 ccAlmostEx 200 (by decide) (by decide)
     (by decide),
   ⟨by decide, claim_C1_running_count_bounded.2.2.2.2.1 hRunEx true 200 (by decide)⟩⟩

/-- C2: within one update/loop invocation, confirmed-unit processing happens
before the timeout check, so a unit that completes the target in a tick whose
entry state also satisfies the timeout condition resolves the run as
target-reached, never as timed-out: the counter ends with
`targetReached = true`, `timedOut = false`, and only the target-reached event
is emitted; the hopper ends not busy with the DONE messages and no ERR
TIMEOUT line. -/
theorem claim_C2_unit_confirmed_before_timeout :
    (∀ s now, s.dispensing = true → 0 < s.target → s.target ≤ s.count + 1 →
      ccTimeoutDuration ≤ now - s.lastCoinTime →
      (ccUpdate s true now).1.targetReached = true ∧
      (ccUpdate s true now).1.timedOut = false ∧
      (ccUpdate s true now).1.dispensing = false ∧
      (ccUpdate s true now).2 = [CCMsg.targetReachedEvent (s.count + 1) s.target]) ∧
    (∀ s now, s.busy = true → 0 < s.target → s.target ≤ s.count + 1 →
      s.lastButtonState = false → s.pulsing = true → 150 < now - s.pulseStart →
      hopperMaxGapMs ≤ now - s.lastCoin →
      (hLoop s true now).1.busy = false ∧
      (hLoop s true now).2.filter HMsg.isErrTimeout = [] ∧
      (hLoop s true now).2 =
        [HMsg.countMsg (s.count + 1), HMsg.stoppedMsg, HMsg.doneHopperMsg,
         HMsg.targetReachedMsg (s.count + 1)]) := by
  constructor
  · intro s now hd ht hcomp _
    obtain ⟨h1, h2⟩ := ccUpdate_completes s now hd ht hcomp
    rw [h1, h2]
    exact ⟨rfl, rfl, rfl, rfl⟩
  · intro s now hb ht hcomp hlb hpul hps _
    obtain ⟨b1, _, _, b4⟩ := hLoop_completes s now hb ht hcomp hlb hpul hps
    refine ⟨b1, ?_, b4⟩
    rw [b4]
    simp [HMsg.isErrTimeout]

theorem claim_C2_witness :
    (ccSameTickEx.dispensing = true ∧ 0 < ccSameTickEx.target ∧
      ccSameTickEx.target ≤ ccSameTickEx.count + 1 ∧
      ccTimeoutDuration ≤ 3500 - ccSameTickEx.lastCoinTime) ∧
    ((ccUpdate ccSameTickEx true 3500).1.targetReached = true ∧
     (ccUpdate ccSameTickEx true 3500).1.timedOut = false ∧
     (ccUpdate ccSameTickEx true 3500).1.dispensing = false ∧
     (ccUpdate ccSameTickEx true 3500).2 =
       [CCMsg.targetReachedEvent (ccSameTickEx.count + 1) ccSameTickEx.target]) ∧
    ((hLoop hSameTickEx true 3500).1.busy = false ∧
     (hLoop hSameTickEx true 3500).2.filter HMsg.isErrTimeout = [] ∧
     (hLoop hSameTickEx true 3500).2 =
       [HMsg.countMsg (hSameTickEx.count + 1), HMsg.stoppedMsg,
        HMsg.doneHopperMsg, HMsg.targetReachedMsg (hSameTickEx.count + 1)]) :=
  ⟨⟨by decide, by decide, by decide, by decide⟩,
   claim_C2_unit_confirmed_before_timeout.1 ccSameTickEx 3500 (by decide)
     (by decide) (by decide) (by decide),
   claim_C2_unit_confirmed_before_timeout.2 hSameTickEx 3500 (by decide)
     (by decide) (by decide) (by decide) (by decide) (by decide) (by decide)⟩

/-- C4: if no unit is confirmed for at least 3000 ms while running, the next
update/loop pass transitions the run to timed-out exactly once: the actuator
is de-energized, a single timeout error carrying the partial count and the
target is emitted, and every later pass on the no-longer-running state emits
no message at all. -/
theorem claim_C4_timeout_exactly_once :
    (∀ s now, s.dispensing = true → s.targetReached = false →
      ccTimeoutDuration ≤ now - s.lastCoinTime →
      (ccUpdate s false now).1.timedOut = true ∧
      (ccUpdate s false now).1.dispensing = false ∧
      (ccUpdate s false now).1.relayOn = false ∧
      (ccUpdate s false now).2.filter CCMsg.isTimeoutErr =
        [CCMsg.timeoutError s.count s.target]) ∧
    (∀ s p now, s.dispensing = false → (ccUpdate s p now).2 = []) ∧
    (∀ s now, s.busy = true → hopperMaxGapMs ≤ now - s.lastCoin →
      (hLoop s false now).1.busy = false ∧
      (hLoop s false now).1.actuatorOn = false ∧
      (hLoop s false now).2 =
        [HMsg.stoppedMsg, HMsg.doneHopperMsg,
         HMsg.errTimeoutMsg s.count s.target]) ∧
    (∀ s p now, s.busy = false → hLoop s p now = (s, [])) := by
  refine ⟨ccUpdate_timesOut, ?_, hLoop_timesOut, hLoop_not_busy⟩
  intro s p now h
  exact (ccUpdate_not_dispensing s p now h).1

theorem claim_C4_witness :
    (ccTimedEx.dispensing = true ∧ ccTimedEx.targetReached = false ∧
      ccTimeoutDuration ≤ 3200 - ccTimedEx.lastCoinTime) ∧
    ((ccUpdate ccTimedEx false 3200).1.timedOut = true ∧
     (ccUpdate ccTimedEx false 3200).1.dispensing = false ∧
     (ccUpdate ccTimedEx false 3200).1.relayOn = false ∧
     (ccUpdate ccTimedEx false 3200).2.filter CCMsg.isTimeoutErr =
       [CCMsg.timeoutError ccTimedEx.count ccTimedEx.target]) ∧
    (ccUpdate ccInit true 9999).2 = [] ∧
    ((hLoop hSameTickEx false 3500).1.busy = false ∧
     (hLoop hSameTickEx false 3500).1.actuatorOn = false ∧
     (hLoop hSameTickEx false 3500).2 =
       [HMsg.stoppedMsg, HMsg.doneHopperMsg,
        HMsg.errTimeoutMsg hSameTickEx.count hSameTickEx.target]) ∧
    hLoop hInit true 42 = (hInit, []) :=
  ⟨⟨by decide, by decide, by decide⟩,
   claim_C4_timeout_exactly_once.1 ccTimedEx 3200 (by decide) (by decide)
     (by decide),
   claim_C4_timeout_exactly_once.2.1 ccInit true 9999 (by decide),
   claim_C4_timeout_exactly_once.2.2.1 hSameTickEx 3500 (by decide) (by decide),
   claim_C4_timeout_exactly_once.2.2.2 hInit true 42 (by decide)⟩

/-! Theorems: CoinSlotISR (src/main/CoinSlotISR.cpp) -/

theorem processEdges_count_mono (ts : List Nat) (s : SlotState) :
    s.pulseCount ≤ (processEdges s ts).pulseCount := by
  induction ts generalizing s with
  | nil => exact le_refl _
  | cons t ts ih =>
    show s.pulseCount ≤ (processEdges (coinPulseISR s t) ts).pulseCount
    refine le_trans ?_ (ih (coinPulseISR s t))
    unfold coinPulseISR
    split <;> simp

theorem processEdges_span (ts : List Nat) (s : SlotState) (b : Nat)
    (hb : ∀ t ∈ ts, t ≤ b) :
    51 * ((processEdges s ts).pulseCount - s.pulseCount) ≤ b - s.lastPulseTime := by
  induction ts generalizing s with
  | nil => simp [processEdges]
  | cons t ts ih =>
    have hstep : processEdges s (t :: ts) = processEdges (coinPulseISR s t) ts := rfl
    rw [hstep]
    by_cases hc : coinDebounceTime < t - s.lastPulseTime
    · have hs' : coinPulseISR s t =
          { s with pulseCount := s.pulseCount + 1, lastPulseTime := t,
                   coinActive := true } := by
        unfold coinPulseISR
        rw [if_pos hc]
      rw [hs']
      have hIH := ih { s with pulseCount := s.pulseCount + 1, lastPulseTime := t,
                              coinActive := true }
        (fun t' ht' => hb t' (List.mem_cons_of_mem _ ht'))
      have hmono := processEdges_count_mono ts
        { s with pulseCount := s.pulseCount + 1, lastPulseTime := t,
                 coinActive := true }
      have htb : t ≤ b := hb t (List.mem_cons_self _ _)
      simp only [coinDebounceTime] at hc
      simp only at hIH hmono
      omega
    · have hs' : coinPulseISR s t = s := by
        unfold coinPulseISR
        rw [if_neg hc]
      rw [hs']
      exact ih s (fun t' ht' => hb t' (List.mem_cons_of_mem _ ht'))

theorem processEdges_window_bound (ts : List Nat) (s : SlotState) (a b : Nat)
    (h : ∀ t ∈ ts, a ≤ t ∧ t ≤ b) :
    (processEdges s ts).pulseCount ≤ s.pulseCount + (b - a) / coinDebounceTime + 1 := by
  induction ts generalizing s with
  | nil =>
    simp only [processEdges, List.foldl, coinDebounceTime]
    omega
  | cons t ts ih =>
    have hstep : processEdges s (t :: ts) = processEdges (coinPulseISR s t) ts := rfl
    rw [hstep]
    by_cases hc : coinDebounceTime < t - s.lastPulseTime
    · have hs' : coinPulseISR s t =
          { s with pulseCount := s.pulseCount + 1, lastPulseTime := t,
                   coinActive := true } := by
        unfold coinPulseISR
        rw [if_pos hc]
      rw [hs']
      have hspan := processEdges_span ts
        { s with pulseCount := s.pulseCount + 1, lastPulseTime := t,
                 coinActive := true } b
        (fun t' ht' => (h t' (List.mem_cons_of_mem _ ht')).2)
      have hmono := processEdges_count_mono ts
        { s with pulseCount := s.pulseCount + 1, lastPulseTime := t,
                 coinActive := true }
      have hta : a ≤ t := (h t (List.mem_cons_self _ _)).1
      have htb : t ≤ b := (h t (List.mem_cons_self _ _)).2
      simp only at hspan hmono
      simp only [coinDebounceTime]
      generalize hgen : (processEdges
        { s with pulseCount := s.pulseCount + 1, lastPulseTime := t,
                 coinActive := true } ts).pulseCount = C at hspan hmono ⊢
      have h50 : (C - s.pulseCount - 1) * 50 ≤ b - a := by omega
      have hD : C - s.pulseCount - 1 ≤ (b - a) / 50 :=
        (Nat.le_div_iff_mul_le (by norm_num)).mpr h50
      omega
    · have hs' : coinPulseISR s t = s := by
        unfold coinPulseISR
        rw [if_neg hc]
      rw [hs']
      exact ih s (fun t' ht' => h t' (List.mem_cons_of_mem _ ht'))

/-- C5: finalizing a burst of 1, 3, 6 or 9 pulses classifies to coin value
1, 5, 10 or 20 respectively, adds the value to the running total and emits
the coin event; every other pulse count classifies to 0, leaves the total
unchanged and emits nothing. -/
theorem claim_C5_burst_classification :
    (∀ total : Int,
      finalizeCoin total 1 = (total + 1, [SlotMsg.coinEvent 1 (total + 1)]) ∧
      finalizeCoin total 3 = (total + 5, [SlotMsg.coinEvent 5 (total + 5)]) ∧
      finalizeCoin total 6 = (total + 10, [SlotMsg.coinEvent 10 (total + 10)]) ∧
      finalizeCoin total 9 = (total + 20, [SlotMsg.coinEvent 20 (total + 20)])) ∧
    (∀ (total : Int) (count : Nat),
      count ≠ 1 → count ≠ 3 → count ≠ 6 → count ≠ 9 →
      getCoinValue count = 0 ∧ finalizeCoin total count = (total, [])) := by
  constructor
  · intro total
    refine ⟨?_, ?_, ?_, ?_⟩ <;> simp [finalizeCoin, getCoinValue]
  · intro total count h1 h3 h6 h9
    have hv : getCoinValue count = 0 := by
      simp [getCoinValue, h1, h3, h6, h9]
    exact ⟨hv, by simp [finalizeCoin, hv]⟩

theorem claim_C5_witness :
    (finalizeCoin 7 1 = (8, [SlotMsg.coinEvent 1 8]) ∧
     finalizeCoin 7 3 = (12, [SlotMsg.coinEvent 5 12]) ∧
     finalizeCoin 7 6 = (17, [SlotMsg.coinEvent 10 17]) ∧
     finalizeCoin 7 9 = (27, [SlotMsg.coinEvent 20 27])) ∧
    ((4 : Nat) ≠ 1 ∧ (4 : Nat) ≠ 3 ∧ (4 : Nat) ≠ 6 ∧ (4 : Nat) ≠ 9) ∧
    (getCoinValue 4 = 0 ∧ finalizeCoin 7 4 = (7, [])) :=
  ⟨claim_C5_burst_classification.1 7,
   ⟨by decide, by decide, by decide, by decide⟩,
   claim_C5_burst_classification.2 7 4 (by decide) (by decide) (by decide)
     (by decide)⟩

/-- C9: two raw edges separated by less than the 50 ms debounce interval
never both increment the pulse count, and over any window `[a, b]` containing
all delivered edges the pulse count grows by at most
`(b - a) / debounceInterval + 1`. -/
theorem claim_C9_debounce_bound :
    (∀ (s : SlotState) (t1 t2 : Nat), t2 - t1 < coinDebounceTime →
      ¬(coinDebounceTime < t1 - s.lastPulseTime ∧
        coinDebounceTime < t2 - (coinPulseISR s t1).lastPulseTime)) ∧
    (∀ (s : SlotState) (ts : List Nat) (a b : Nat),
      (∀ t ∈ ts, a ≤ t ∧ t ≤ b) →
      (processEdges s ts).pulseCount ≤
        s.pulseCount + (b - a) / coinDebounceTime + 1) := by
  constructor
  · intro s t1 t2 hclose
    rintro ⟨h1, h2⟩
    rw [show coinPulseISR s t1 =
        { s with pulseCount := s.pulseCount + 1, lastPulseTime := t1,
                 coinActive := true } from by
      unfold coinPulseISR; rw [if_pos h1]] at h2
    simp only [coinDebounceTime] at h2 hclose
    omega
  · intro s ts a b h
    exact processEdges_window_bound ts s a b h

theorem claim_C9_witness :
    ((120 : Nat) - 100 < coinDebounceTime ∧
      ¬(coinDebounceTime < 100 - slotInit.lastPulseTime ∧
        coinDebounceTime < 120 - (coinPulseISR slotInit 100).lastPulseTime)) ∧
    ((∀ t ∈ [60, 130, 200], 60 ≤ t ∧ t ≤ 200) ∧
      (processEdges slotInit [60, 130, 200]).pulseCount ≤
        slotInit.pulseCount + (200 - 60) / coinDebounceTime + 1) :=
  ⟨⟨by decide, claim_C9_debounce_bound.1 slotInit 100 120 (by decide)⟩,
   ⟨by decide, claim_C9_debounce_bound.2 slotInit [60, 130, 200] 60 200
     (by decide)⟩⟩

/-! Theorems: PaperDispenser (src/main/StepperMotor.cpp) -/

theorem pdPass_feeds (t : Nat) (s : PDState)
    (hm : s.mode = PDMode.dispensingMode) (hst : s.stopped = false)
    (hlt : s.currentPaper < s.totalPapers) :
    pdPass t s = { s with currentPaper := s.currentPaper + 1 } ∧
    (pdStepMachine s true t).2 = [PDMsg.statusMsg] := by
  unfold pdPass pdStepMachine
  rw [hm]
  have hcond : ¬(s.totalPapers ≤ s.currentPaper ∨ s.stopped = true) := by
    rw [hst]
    simp
    omega
  rw [if_neg hcond]
  simp

theorem pdPass_iterate (t : Nat) (s : PDState) (n : Nat)
    (hm : s.mode = PDMode.dispensingMode) (hst : s.stopped = false)
    (hcur : s.currentPaper = 0) (htot : s.totalPapers = (n : Int)) :
    ∀ k : Nat, k ≤ n →
      (pdPass t)^[k] s = { s with currentPaper := (k : Int) } := by
  intro k hk
  induction k with
  | zero =>
    simp only [Function.iterate_zero, id_eq, Nat.cast_zero]
    rw [← hcur]
  | succ k ih =>
    have hk' : k ≤ n := Nat.le_of_succ_le hk
    rw [Function.iterate_succ_apply', ih hk']
    have hfeed := pdPass_feeds t { s with currentPaper := (k : Int) }
      (by simpa using hm) (by simpa using hst)
      (by simp [htot]; exact_mod_cast Nat.lt_of_succ_le hk)
    rw [hfeed.1]
    simp

theorem pdDispense_starts (s : PDState) (n : Nat) (hn : 0 < n) (t0 : Nat) :
    pdDispense s (n : Int) t0 =
      ({ s with currentPaper := 0, totalPapers := (n : Int), dispensing := true,
                rampingDown := false, operationComplete := false, stopped := false,
                mode := PDMode.homing, motor := Motor.forwardDir,
                operationStartTime := t0, lastStatusTime := t0 },
       [PDMsg.statusMsg]) := by
  unfold pdDispense
  rw [if_neg (by omega)]

theorem pdStep_homing (s : PDState) (t : Nat)
    (hm : s.mode = PDMode.homing) (hd : s.dispensing = true) :
    pdStepMachine s true t =
      ({ s with motor := Motor.stoppedDir, mode := PDMode.dispensingMode }, []) := by
  unfold pdStepMachine
  rw [hm]
  simp [hd]

theorem pdStep_toRamp (s : PDState) (t : Nat)
    (hm : s.mode = PDMode.dispensingMode)
    (hdone : s.totalPapers ≤ s.currentPaper ∨ s.stopped = true) :
    pdStepMachine s true t =
      ({ s with mode := PDMode.rampingDown, rampingDown := true,
                rampDownStartTime := t, motor := Motor.reverseDir }, []) := by
  unfold pdStepMachine
  rw [hm]
  rw [if_pos hdone]

theorem pdStep_rampDone (s : PDState) (t : Nat)
    (hm : s.mode = PDMode.rampingDown)
    (ht : pdRampDownTime ≤ t - s.rampDownStartTime) :
    pdStepMachine s true t =
      ({ s with motor := Motor.stoppedDir, rampingDown := false,
                mode := PDMode.complete, operationComplete := true },
       [PDMsg.completeEvent]) := by
  unfold pdStepMachine
  rw [hm]
  rw [if_pos ht]

theorem pdStep_rampWaiting (s : PDState) (t : Nat)
    (hm : s.mode = PDMode.rampingDown)
    (ht : ¬pdRampDownTime ≤ t - s.rampDownStartTime) :
    pdStepMachine s true t = (s, []) := by
  unfold pdStepMachine
  rw [hm]
  rw [if_neg ht]

theorem pdStep_completeCollapse (s : PDState) (limit : Bool) (t : Nat)
    (hm : s.mode = PDMode.complete) :
    pdStepMachine s limit t =
      ({ s with dispensing := false, currentPaper := 0, totalPapers := 0,
                mode := PDMode.idle }, []) := by
  unfold pdStepMachine
  rw [hm]

/-- C6: for every `n > 0`, `dispense(n)` issued from `Idle` drives the feed
sequencer through Homing, then Feeding (one sheet per pass, `currentSheet`
equal to the number of completed passes, hence strictly increasing 1..n and
never exceeding `totalSheets`), then RampingDown, then Complete (emitting the
completion event), then back to Idle with the job fields cleared, in that
order; Complete collapses to Idle on the very next tick emitting nothing, so
completion is observed exactly once. -/
theorem claim_C6_feed_trajectory (s : PDState) (n : Nat) (hn : 0 < n)
    (t0 t1 t2 t3 : Nat) :
    ((pdRunS1 s n t0).mode = PDMode.homing ∧
      (pdDispense s (n : Int) t0).2 = [PDMsg.statusMsg]) ∧
    ((pdRunS2 s n t0 t1).mode = PDMode.dispensingMode ∧
      (pdRunS2 s n t0 t1).currentPaper = 0 ∧
      (pdRunS2 s n t0 t1).totalPapers = (n : Int)) ∧
    (∀ k, k ≤ n →
      (pdRunFeed s n t0 t1 t2 k).mode = PDMode.dispensingMode ∧
      (pdRunFeed s n t0 t1 t2 k).currentPaper = (k : Int) ∧
      (pdRunFeed s n t0 t1 t2 k).currentPaper ≤ (pdRunFeed s n t0 t1 t2 k).totalPapers) ∧
    (∀ k, k < n →
      (pdStepMachine (pdRunFeed s n t0 t1 t2 k) true t2).2 = [PDMsg.statusMsg] ∧
      (pdRunFeed s n t0 t1 t2 (k + 1)).currentPaper = (k : Int) + 1) ∧
    ((pdRunRamp s n t0 t1 t2).mode = PDMode.rampingDown ∧
      (pdStepMachine (pdRunFeed s n t0 t1 t2 n) true t2).2 = []) ∧
    ((pdRunComplete s n t0 t1 t2).mode = PDMode.complete ∧
      (pdStepMachine (pdRunRamp s n t0 t1 t2) true (t2 + pdRampDownTime)).2 =
        [PDMsg.completeEvent]) ∧
    ((pdStepMachine (pdRunComplete s n t0 t1 t2) true t3).1.mode = PDMode.idle ∧
      (pdStepMachine (pdRunComplete s n t0 t1 t2) true t3).1.currentPaper = 0 ∧
      (pdStepMachine (pdRunComplete s n t0 t1 t2) true t3).1.totalPapers = 0 ∧
      (pdStepMachine (pdRunComplete s n t0 t1 t2) true t3).1.dispensing = false ∧
      (pdStepMachine (pdRunComplete s n t0 t1 t2) true t3).2 = []) := by
  have h1 := pdDispense_starts s n hn t0
  have hS1 : pdRunS1 s n t0 =
      { s with currentPaper := 0, totalPapers := (n : Int), dispensing := true,
               rampingDown := false, operationComplete := false, stopped := false,
               mode := PDMode.homing, motor := Motor.forwardDir,
               operationStartTime := t0, lastStatusTime := t0 } := by
    unfold pdRunS1
    rw [h1]
  have hS2 : pdRunS2 s n t0 t1 =
      { s with currentPaper := 0, totalPapers := (n : Int), dispensing := true,
               rampingDown := false, operationComplete := false, stopped := false,
               mode := PDMode.dispensingMode, motor := Motor.stoppedDir,
               operationStartTime := t0, lastStatusTime := t0 } := by
    unfold pdRunS2
    rw [hS1, pdStep_homing _ _ rfl rfl]
  have hFeed : ∀ k, k ≤ n → pdRunFeed s n t0 t1 t2 k =
      { s with currentPaper := (k : Int), totalPapers := (n : Int),
               dispensing := true, rampingDown := false,
               operationComplete := false, stopped := false,
               mode := PDMode.dispensingMode, motor := Motor.stoppedDir,
               operationStartTime := t0, lastStatusTime := t0 } := by
    intro k hk
    have := pdPass_iterate t2 (pdRunS2 s n t0 t1) n
      (by rw [hS2]) (by rw [hS2]) (by rw [hS2]) (by rw [hS2]) k hk
    unfold pdRunFeed
    rw [this, hS2]
  have hRamp : pdRunRamp s n t0 t1 t2 =
      { s with currentPaper := (n : Int), totalPapers := (n : Int),
               dispensing := true, rampingDown := true,
               operationComplete := false, stopped := false,
               mode := PDMode.rampingDown, motor := Motor.reverseDir,
               operationStartTime := t0, lastStatusTime := t0,
               rampDownStartTime := t2 } := by
    unfold pdRunRamp
    rw [hFeed n (le_refl n), pdStep_toRamp _ _ rfl (Or.inl (le_refl _))]
  have hComp : pdRunComplete s n t0 t1 t2 =
      { s with currentPaper := (n : Int), totalPapers := (n : Int),
               dispensing := true, rampingDown := false,
               operationComplete := true, stopped := false,
               mode := PDMode.complete, motor := Motor.stoppedDir,
               operationStartTime := t0, lastStatusTime := t0,
               rampDownStartTime := t2 } := by
    unfold pdRunComplete
    rw [hRamp, pdStep_rampDone _ _ rfl (by simp)]
  refine ⟨⟨by rw [hS1], by rw [h1]⟩, ⟨by rw [hS2], by rw [hS2], by rw [hS2]⟩,
    ?_, ?_, ?_, ?_, ?_⟩
  · intro k hk
    refine ⟨by rw [hFeed k hk], by rw [hFeed k hk], ?_⟩
    rw [hFeed k hk]
    show (k : Int) ≤ (n : Int)
    exact_mod_cast hk
  · intro k hk
    constructor
    · have := pdPass_feeds t2 (pdRunFeed s n t0 t1 t2 k)
        (by rw [hFeed k (le_of_lt hk)]) (by rw [hFeed k (le_of_lt hk)])
        (by rw [hFeed k (le_of_lt hk)]; show (k : Int) < (n : Int); exact_mod_cast hk)
      exact this.2
    · rw [hFeed (k + 1) hk]
      push_cast
      ring
  · constructor
    · rw [hRamp]
    · rw [hFeed n (le_refl n), pdStep_toRamp _ _ rfl (Or.inl (le_refl _))]
  · constructor
    · rw [hComp]
    · rw [hRamp, pdStep_rampDone _ _ rfl (by simp)]
  · rw [hComp, pdStep_completeCollapse _ _ _ rfl]
    exact ⟨rfl, rfl, rfl, rfl, rfl⟩

theorem claim_C6_witness :
    0 < 5 ∧
    (((pdRunS1 pdInit 5 0).mode = PDMode.homing ∧
       (pdDispense pdInit ((5 : Nat) : Int) 0).2 = [PDMsg.statusMsg]) ∧
     ((pdRunS2 pdInit 5 0 10).mode = PDMode.dispensingMode ∧
       (pdRunS2 pdInit 5 0 10).currentPaper = 0 ∧
       (pdRunS2 pdInit 5 0 10).totalPapers = ((5 : Nat) : Int)) ∧
     (∀ k, k ≤ 5 →
       (pdRunFeed pdInit 5 0 10 20 k).mode = PDMode.dispensingMode ∧
       (pdRunFeed pdInit 5 0 10 20 k).currentPaper = (k : Int) ∧
       (pdRunFeed pdInit 5 0 10 20 k).currentPaper ≤
         (pdRunFeed pdInit 5 0 10 20 k).totalPapers) ∧
     (∀ k, k < 5 →
       (pdStepMachine (pdRunFeed pdInit 5 0 10 20 k) true 20).2 = [PDMsg.statusMsg] ∧
       (pdRunFeed pdInit 5 0 10 20 (k + 1)).currentPaper = (k : Int) + 1) ∧
     ((pdRunRamp pdInit 5 0 10 20).mode = PDMode.rampingDown ∧
       (pdStepMachine (pdRunFeed pdInit 5 0 10 20 5) true 20).2 = []) ∧
     ((pdRunComplete pdInit 5 0 10 20).mode = PDMode.complete ∧
       (pdStepMachine (pdRunRamp pdInit 5 0 10 20) true (20 + pdRampDownTime)).2 =
         [PDMsg.completeEvent]) ∧
     ((pdStepMachine (pdRunComplete pdInit 5 0 10 20) true 30).1.mode = PDMode.idle ∧
       (pdStepMachine (pdRunComplete pdInit 5 0 10 20) true 30).1.currentPaper = 0 ∧
       (pdStepMachine (pdRunComplete pdInit 5 0 10 20) true 30).1.totalPapers = 0 ∧
       (pdStepMachine (pdRunComplete pdInit 5 0 10 20) true 30).1.dispensing = false ∧
       (pdStepMachine (pdRunComplete pdInit 5 0 10 20) true 30).2 = [])) :=
  ⟨by decide, claim_C6_feed_trajectory pdInit 5 (by decide) 0 10 20 30⟩

/-! Theorems: Claims C3, C7, C8 (corrected) -/

/-- C3 counterexample: the claim fails on `CoinCounter` in both parts.  A
JSON dispense command with the non-positive value 0 leaves the state
unchanged but is acknowledged `ok:true` ("started"), not with an
invalid-input outcome; and `dispense` issued while already running is not a
no-op: it restarts the job with the new target and zeroed count. -/
theorem claim_C3_counterexample :
    (ccProcessJsonDispense ccInit (some 0) 5 =
      (ccInit, [CCMsg.ackMsg true 0])) ∧
    (ccRunEx.dispensing = true ∧ ccRunEx.count = 2 ∧
      (ccDispense ccRunEx 3 7).1.dispensing = true ∧
      (ccDispense ccRunEx 3 7).1.target = 3 ∧
      (ccDispense ccRunEx 3 7).1.count = 0 ∧
      (ccDispense ccRunEx 3 7).1 ≠ ccRunEx) := by
  refine ⟨by decide, by decide, by decide, by decide, by decide, by decide, ?_⟩
  decide

/-- C3 as amended: a non-positive dispense target is a pure no-op on the
controller state (never starts, mutates nothing) but the JSON command path
still acknowledges it `ok:true`; only a missing `value` field is acknowledged
`ok:false`.  A dispense while already running is accepted and restarts the
job.  (The `HopperPayout` variant does reject a start while busy and a zero
amount, returning false.) -/
theorem claim_C3_invalid_dispense :
    (∀ (s : CCState) (n : Int) (now : Nat), n ≤ 0 →
      ccDispense s n now = (s, []) ∧
      ccProcessJsonDispense s (some n) now = (s, [CCMsg.ackMsg true n])) ∧
    (∀ (s : CCState) (now : Nat),
      ccProcessJsonDispense s none now = (s, [CCMsg.ackMsg false 0])) ∧
    (∀ (s : CCState) (n : Int) (now : Nat), 0 < n →
      (ccDispense s n now).1.dispensing = true ∧
      (ccDispense s n now).1.target = n ∧
      (ccDispense s n now).1.count = 0) ∧
    (∀ (s : HState) (n now : Nat), s.busy = true →
      hStart s n now = (s, false, [])) ∧
    (∀ (s : HState) (now : Nat), s.busy = false →
      hStart s 0 now = (s, false, [HMsg.invalidAmountMsg])) := by
  refine ⟨?_, ?_, ?_, ?_, ?_⟩
  · intro s n now hn
    have hd : ccDispense s n now = (s, []) := by
      unfold ccDispense
      rw [if_pos hn]
    refine ⟨hd, ?_⟩
    show ((ccDispense s n now).1, (ccDispense s n now).2 ++ [CCMsg.ackMsg true n]) = _
    rw [hd]
    rfl
  · intro s now
    rfl
  · intro s n now hn
    unfold ccDispense
    rw [if_neg (by omega)]
    exact ⟨rfl, rfl, rfl⟩
  · intro s n now hb
    unfold hStart
    rw [if_pos hb]
  · intro s now hb
    unfold hStart
    rw [if_neg (by simp [hb]), if_pos rfl]

theorem claim_C3_witness :
    ((-2 : Int) ≤ 0 ∧
      ccDispense ccRunEx (-2) 9 = (ccRunEx, []) ∧
      ccProcessJsonDispense ccRunEx (some (-2)) 9 =
        (ccRunEx, [CCMsg.ackMsg true (-2)])) ∧
    ccProcessJsonDispense ccRunEx none 9 = (ccRunEx, [CCMsg.ackMsg false 0]) ∧
    ((0 : Int) < 3 ∧ (ccDispense ccRunEx 3 9).1.dispensing = true ∧
      (ccDispense ccRunEx 3 9).1.target = 3 ∧ (ccDispense ccRunEx 3 9).1.count = 0) ∧
    (hRunEx.busy = true ∧ hStart hRunEx 4 9 = (hRunEx, false, [])) ∧
    (hInit.busy = false ∧ hStart hInit 0 9 = (hInit, false, [HMsg.invalidAmountMsg])) :=
  ⟨⟨by decide, (claim_C3_invalid_dispense.1 ccRunEx (-2) 9 (by decide)).1,
    (claim_C3_invalid_dispense.1 ccRunEx (-2) 9 (by decide)).2⟩,
   claim_C3_invalid_dispense.2.1 ccRunEx 9,
   ⟨by decide, claim_C3_invalid_dispense.2.2.1 ccRunEx 3 9 (by decide)⟩,
   ⟨by decide, claim_C3_invalid_dispense.2.2.2.1 hRunEx 4 9 (by decide)⟩,
   ⟨by decide, claim_C3_invalid_dispense.2.2.2.2 hInit 9 (by decide)⟩⟩

/-- C7 counterexample: on the paper-feed sequencer, `stop()` called mid-run
does not prevent the completion event.  After `dispense(5)`, two fed sheets
and a `stop()`, the next pass enters RampingDown and the pass after the
ramp-down delay still emits the one-shot `dispense_complete` event — the
claim says stop never causes a Complete event to be raised for that run. -/
theorem claim_C7_counterexample :
    pdStopRunCE.dispensing = true ∧ pdStopRunCE.stopped = true ∧
    pdStopRunCE.currentPaper = 2 ∧ pdStopRunCE.totalPapers = 5 ∧
    (pdStepMachine pdStopRunCE true 30).1.mode = PDMode.rampingDown ∧
    (pdStepMachine (pdStepMachine pdStopRunCE true 30).1 true 8030).2 =
      [PDMsg.completeEvent] := by
  decide

/-- C7 as amended: for the count-toward-target controllers the claim holds:
`CoinCounter::stopDispensing` only clears the dispensing flag and
de-energizes the relay, emits nothing, never sets target-reached, and once
not dispensing no later update emits anything; calling it while already idle
is a pure no-op; `HopperPayout::stop` likewise only halts.  The paper-feed
sequencer's `stop()`, however, is a deferred stop request: it only sets the
stopped flag, the next feeding pass enters RampingDown, and the run still
emits its one-shot complete event when the ramp-down delay elapses. -/
theorem claim_C7_stop_semantics :
    (∀ s : CCState, (ccStopDispensing s).1.dispensing = false ∧
      (ccStopDispensing s).1.targetReached = s.targetReached ∧
      (ccStopDispensing s).1.count = s.count ∧
      (ccStopDispensing s).1.relayOn = false ∧
      (ccStopDispensing s).2 = []) ∧
    (∀ s : CCState, s.dispensing = false → s.relayOn = false →
      ccStopDispensing s = (s, [])) ∧
    (∀ (s : CCState) (p : Bool) (now : Nat), s.dispensing = false →
      (ccUpdate s p now).2 = []) ∧
    (∀ s : HState, (hStop s).1.busy = false ∧ (hStop s).1.actuatorOn = false ∧
      (hStop s).1.count = s.count ∧ (hStop s).2 = [HMsg.stoppedMsg]) ∧
    (∀ s : PDState, s.dispensing = true → pdStop s = { s with stopped := true }) ∧
    (∀ s : PDState, s.dispensing = false → pdStop s = s) ∧
    (∀ (s : PDState) (t : Nat), s.mode = PDMode.dispensingMode → s.stopped = true →
      (pdStepMachine s true t).1.mode = PDMode.rampingDown ∧
      (pdStepMachine s true t).2 = []) ∧
    (∀ (s : PDState) (t : Nat), s.mode = PDMode.rampingDown →
      pdRampDownTime ≤ t - s.rampDownStartTime →
      (pdStepMachine s true t).2 = [PDMsg.completeEvent]) := by
  refine ⟨fun s => ⟨rfl, rfl, rfl, rfl, rfl⟩, ?_, ?_, fun s => ⟨rfl, rfl, rfl, rfl⟩,
    ?_, ?_, ?_, ?_⟩
  · intro s hd hr
    cases s
    simp_all [ccStopDispensing]
  · intro s p now hd
    exact (ccUpdate_not_dispensing s p now hd).1
  · intro s hd
    unfold pdStop
    rw [if_pos hd]
  · intro s hd
    unfold pdStop
    rw [if_neg (by simp [hd])]
  · intro s t hm hstop
    rw [pdStep_toRamp s t hm (Or.inr hstop)]
    exact ⟨rfl, rfl⟩
  · intro s t hm ht
    rw [pdStep_rampDone s t hm ht]

theorem claim_C7_witness :
    ((ccStopDispensing ccRunEx).1.dispensing = false ∧
      (ccStopDispensing ccRunEx).1.targetReached = ccRunEx.targetReached ∧
      (ccStopDispensing ccRunEx).1.count = ccRunEx.count ∧
      (ccStopDispensing ccRunEx).1.relayOn = false ∧
      (ccStopDispensing ccRunEx).2 = []) ∧
    (ccInit.dispensing = false ∧ ccInit.relayOn = false ∧
      ccStopDispensing ccInit = (ccInit, [])) ∧
    ((ccStopDispensing ccRunEx).1.dispensing = false ∧
      (ccUpdate (ccStopDispensing ccRunEx).1 true 500).2 = []) ∧
    ((hStop hRunEx).1.busy = false ∧ (hStop hRunEx).2 = [HMsg.stoppedMsg]) ∧
    (pdMidEx.dispensing = true ∧ pdStop pdMidEx = { pdMidEx with stopped := true }) ∧
    (pdInit.dispensing = false ∧ pdStop pdInit = pdInit) ∧
    (pdStoppedEx.mode = PDMode.dispensingMode ∧ pdStoppedEx.stopped = true ∧
      (pdStepMachine pdStoppedEx true 40).1.mode = PDMode.rampingDown ∧
      (pdStepMachine pdStoppedEx true 40).2 = []) ∧
    (pdRampEx.mode = PDMode.rampingDown ∧
      pdRampDownTime ≤ 8030 - pdRampEx.rampDownStartTime ∧
      (pdStepMachine pdRampEx true 8030).2 = [PDMsg.completeEvent]) :=
  ⟨claim_C7_stop_semantics.1 ccRunEx,
   ⟨by decide, by decide, claim_C7_stop_semantics.2.1 ccInit (by decide) (by decide)⟩,
   ⟨by decide, claim_C7_stop_semantics.2.2.1 (ccStopDispensing ccRunEx).1 true 500
     (by decide)⟩,
   ⟨(claim_C7_stop_semantics.2.2.2.1 hRunEx).1,
    (claim_C7_stop_semantics.2.2.2.1 hRunEx).2.2.2⟩,
   ⟨by decide, claim_C7_stop_semantics.2.2.2.2.1 pdMidEx (by decide)⟩,
   ⟨by decide, claim_C7_stop_semantics.2.2.2.2.2.1 pdInit (by decide)⟩,
   ⟨by decide, by decide,
    (claim_C7_stop_semantics.2.2.2.2.2.2.1 pdStoppedEx 40 (by decide) (by decide)).1,
    (claim_C7_stop_semantics.2.2.2.2.2.2.1 pdStoppedEx 40 (by decide) (by decide)).2⟩,
   ⟨by decide, by decide,
    claim_C7_stop_semantics.2.2.2.2.2.2.2 pdRampEx 8030 (by decide) (by decide)⟩⟩

/-- C8 counterexample: on `CoinCounter` a sensor press while not dispensing
does mutate the job state: from the idle constructor state a press increments
the count, and from an idle state with a stale timed-out flag a press clears
that flag — the claim says a press outside Running leaves the count and the
rest of the job state unchanged. -/
theorem claim_C8_counterexample :
    ccInit.dispensing = false ∧ ccInit.count = 0 ∧
    (ccUpdate ccInit true 10).1.count = 1 ∧
    ({ ccInit with timedOut := true } : CCState).dispensing = false ∧
    (ccUpdate { ccInit with timedOut := true } true 10).1.timedOut = false := by
  decide

/-- C8 as amended: `CoinCounter` counts a press regardless of state — while
not dispensing a press still increments the count, sets the new-coin flag,
refreshes the last-coin time and clears the timed-out flag — but it causes no
transition and no output: the dispensing flag stays clear, target,
target-reached flag and relay are untouched, and no message is emitted.  The
`HopperPayout` loop ignores the sensor entirely while not busy. -/
theorem claim_C8_press_when_not_running :
    (∀ (s : CCState) (now : Nat), s.dispensing = false →
      (ccUpdate s true now).1.count = s.count + 1 ∧
      (ccUpdate s true now).1.newCoin = true ∧
      (ccUpdate s true now).1.lastCoinTime = now ∧
      (ccUpdate s true now).1.timedOut = false ∧
      (ccUpdate s true now).1.dispensing = false ∧
      (ccUpdate s true now).1.targetReached = s.targetReached ∧
      (ccUpdate s true now).1.target = s.target ∧
      (ccUpdate s true now).1.relayOn = s.relayOn ∧
      (ccUpdate s true now).2 = []) ∧
    (∀ (s : HState) (press : Bool) (now : Nat), s.busy = false →
      hLoop s press now = (s, [])) := by
  refine ⟨?_, hLoop_not_busy⟩
  intro s now hd
  obtain ⟨hm, hdisp, htr, htg, hr, hc, hto, hnc, hlc⟩ :=
    ccUpdate_not_dispensing s true now hd
  simp at hc hto hnc hlc
  exact ⟨hc, hnc, hlc, hto, hdisp, htr, htg, hr, hm⟩

theorem claim_C8_witness :
    (({ ccInit with targetReached := true } : CCState).dispensing = false ∧
      (ccUpdate { ccInit with targetReached := true } true 10).1.count =
        ({ ccInit with targetReached := true } : CCState).count + 1 ∧
      (ccUpdate { ccInit with targetReached := true } true 10).1.targetReached =
        ({ ccInit with targetReached := true } : CCState).targetReached ∧
      (ccUpdate { ccInit with targetReached := true } true 10).2 = []) ∧
    (hInit.busy = false ∧ hLoop hInit false 10 = (hInit, [])) :=
  ⟨⟨by decide,
    (claim_C8_press_when_not_running.1 { ccInit with targetReached := true } 10
      (by decide)).1,
    (claim_C8_press_when_not_running.1 { ccInit with targetReached := true } 10
      (by decide)).2.2.2.2.2.1,
    (claim_C8_press_when_not_running.1 { ccInit with targetReached := true } 10
      (by decide)).2.2.2.2.2.2.2.2⟩,
   ⟨by decide, claim_C8_press_when_not_running.2 hInit false 10 (by decide)⟩⟩

/-! Theorems: RelayHopper (src/main/RelayHopper.cpp) -/

/-- C10: the structured-command path of the relay bank does not validate the
relay number: a JSON `setRelay` whose `value` lies outside 1..3 (for example
0 or 4) reaches the 3-element pin/state arrays with the out-of-range index
`value - 1` (undefined behavior, modelled as `none`), while the public
`setRelay(relayNum, state)` operation guards the range and is a no-op
outside it; inside 1..3 both paths perform the write. -/
theorem claim_C10_relay_bounds :
    (∀ (s : RelayState) (b : Bool) (v : Int), v < 1 ∨ 3 < v →
      processJsonSetRelay s v (some b) = none) ∧
    (∀ (s : RelayState) (b : Bool) (v : Int), 1 ≤ v → v ≤ 3 →
      processJsonSetRelay s v (some b) =
        some (relayWrite s (v - 1).toNat b, [RMsg.ackSet v b])) ∧
    (∀ (s : RelayState) (b : Bool) (n : Nat), n = 0 ∨ 4 ≤ n →
      setRelay s n b = (s, [])) ∧
    (∀ (s : RelayState) (b : Bool) (n : Nat), 1 ≤ n → n ≤ 3 →
      setRelay s n b = (relayWrite s (n - 1) b, [RMsg.ackSet n b])) := by
  refine ⟨?_, ?_, ?_, ?_⟩
  · intro s b v hv
    unfold processJsonSetRelay
    dsimp only
    rw [if_neg (by omega)]
  · intro s b v h1 h3
    unfold processJsonSetRelay
    dsimp only
    rw [if_pos (by omega)]
  · intro s b n hn
    unfold setRelay
    rw [if_neg (by omega)]
  · intro s b n h1 h3
    unfold setRelay
    rw [if_pos ⟨h1, h3⟩]

theorem claim_C10_witness :
    (((0 : Int) < 1 ∨ 3 < (0 : Int)) ∧
      processJsonSetRelay relayInit 0 (some false) = none) ∧
    (((4 : Int) < 1 ∨ 3 < (4 : Int)) ∧
      processJsonSetRelay relayInit 4 (some false) = none) ∧
    processJsonSetRelay relayInit 2 (some false) =
      some (relayWrite relayInit ((2 : Int) - 1).toNat false,
        [RMsg.ackSet 2 false]) ∧
    setRelay relayInit 0 false = (relayInit, []) ∧
    setRelay relayInit 4 false = (relayInit, []) ∧
    setRelay relayInit 2 false =
      (relayWrite relayInit (2 - 1) false, [RMsg.ackSet 2 false]) :=
  ⟨⟨Or.inl (by decide), claim_C10_relay_bounds.1 relayInit false 0
      (Or.inl (by decide))⟩,
   ⟨Or.inr (by decide), claim_C10_relay_bounds.1 relayInit false 4
      (Or.inr (by decide))⟩,
   claim_C10_relay_bounds.2.1 relayInit false 2 (by decide) (by decide),
   claim_C10_relay_bounds.2.2.1 relayInit false 0 (Or.inl rfl),
   claim_C10_relay_bounds.2.2.1 relayInit false 4 (Or.inr (by decide)),
   claim_C10_relay_bounds.2.2.2 relayInit false 2 (by decide) (by decide)⟩
